import Mathlib

/-!
Shallow embedding of the core of src/scholar_to_bibtex.py: the pure
publication-to-entry renderer (sanitize_bibtex_key, extract_year,
publication_to_bibtex) and the batch driver generate_bibtex_file.
Python strings are modelled as Lean String, Python dicts with optional
keys as structures of Option fields, and the loosely-typed dict values
relevant to the error path as an explicit PyVal type.  Literal curly
braces inside entry text are written with \x7b and \x7d escapes.
-/

/-- Word character of the Python re module over ASCII text: letters,
digits, underscore (used for both regexes in the source). -/
def isWordChar (c : Char) : Bool := c.isAlphanum || c == '_'

/-- Python s.replace applied twice in lines 49-50 and 82 of the source:
removes every open and close curly brace from the string. -/
def stripBraces (s : String) : String :=
  String.mk (s.data.filter (fun c => !(c == '\x7b' || c == '\x7d')))

/-- Python str.lower over ASCII text, character by character. -/
def strToLower (s : String) : String :=
  String.mk (s.data.map Char.toLower)

/-- Accumulator core of pySplitWs: acc holds the current token
reversed. -/
def pySplitWsCore (acc : List Char) : List Char → List String
  | [] => if acc.isEmpty then [] else [String.mk acc.reverse]
  | c :: rest =>
    if c.isWhitespace then
      if acc.isEmpty then pySplitWsCore [] rest
      else String.mk acc.reverse :: pySplitWsCore [] rest
    else pySplitWsCore (c :: acc) rest

/-- Python str.split with no separator: split on whitespace runs and
drop the empty pieces. -/
def pySplitWs (s : String) : List String :=
  pySplitWsCore [] s.data

/-- Python authors.split(m)[0] for the comma separator: the segment
before the first comma. -/
def beforeFirstComma (s : String) : String :=
  String.mk (s.data.takeWhile (fun c => !(c == ',')))

/-- Separator join, the semantics of Python sep.join. -/
def joinSep (sep : String) : List String → String
  | [] => ""
  | [l] => l
  | l :: (m :: rest) => l ++ sep ++ joinSep sep (m :: rest)

/-- Python substring membership, x in s, over character lists. -/
def containsSub (needle : List Char) : List Char → Bool
  | [] => needle.isEmpty
  | c :: rest => needle.isPrefixOf (c :: rest) || containsSub needle rest

/-- Lines 24-29 of the source: build the key stem.  The regex
[^\w\s] removal keeps word characters and whitespace in the title;
[^\w] removal keeps only word characters of the surname. -/
def sanitize_bibtex_key (title year author_last : String) : String :=
  let words := pySplitWs (String.mk (title.data.filter (fun c => isWordChar c || c.isWhitespace)))
  let first_word :=
    match words with
    | [] => "unknown"
    | w :: _ => strToLower w
  let author_clean := strToLower (String.mk (author_last.data.filter isWordChar))
  author_clean ++ year ++ first_word

/-- Whether the regex of extract_year, a 4-digit token starting 19 or 20
delimited by word boundaries, matches at position i of the text. -/
def yearTokenAt (cs : List Char) (i : Nat) : Bool :=
  decide (i + 4 ≤ cs.length) &&
  (decide (i = 0) || !isWordChar (cs.getD (i - 1) ' ')) &&
  (decide (i + 4 = cs.length) || !isWordChar (cs.getD (i + 4) ' ')) &&
  ((cs.getD i ' ' == '1' && cs.getD (i + 1) ' ' == '9') ||
   (cs.getD i ' ' == '2' && cs.getD (i + 1) ' ' == '0')) &&
  (cs.getD (i + 2) ' ').isDigit && (cs.getD (i + 3) ' ').isDigit

/-- Least index below the fuel bound at which p holds, scanning left to
right from i, the search order of re.search. -/
def findLeast (p : Nat → Bool) : Nat → Nat → Option Nat
  | _, 0 => none
  | i, fuel + 1 => if p i then some i else findLeast p (i + 1) fuel

/-- Lines 32-35 of the source: leftmost bounded (19|20)dd token of the
text, verbatim, or the sentinel. -/
def extract_year (text : String) : String :=
  match findLeast (yearTokenAt text.data) 0 text.data.length with
  | some i => String.mk ((text.data.drop i).take 4)
  | none => "n.d."

/-- A raw publication record: a Python dict whose keys may be absent.
Field values are modelled as strings (the citation count as Nat); the
loosely-typed variant used for the error path is PyDict below. -/
structure RawPub where
  title : Option String := none
  authors : Option String := none
  year : Option String := none
  venue : Option String := none
  publication : Option String := none
  snippet : Option String := none
  citations : Option Nat := none
  link : Option String := none

/-- The concrete field values the renderer works with. -/
structure NormPub where
  title : String
  authors : String
  year : String
  venue : String
  snippet : String
  citations : Nat
  link : String

/-- Lines 40-46 of the source: field extraction with defaults via
dict.get; the venue falls back to the publication key. -/
def normalizeRecord (pub : RawPub) : NormPub :=
  { title := pub.title.getD "Unknown Title"
    authors := pub.authors.getD "Unknown Author"
    year := pub.year.getD "n.d."
    venue := pub.venue.getD (pub.publication.getD "")
    snippet := pub.snippet.getD ""
    citations := pub.citations.getD 0
    link := pub.link.getD "" }

def confKeywords : List String := ["conference", "proceedings", "symposium", "workshop"]

def jourKeywords : List String := ["journal", "transactions", "letters"]

/-- Lines 52-62 of the source: entry type from the venue string. -/
def entry_type_of (venue : String) : String :=
  if venue ≠ "" then
    let venue_lower := strToLower venue
    if confKeywords.any (fun x => containsSub x.data venue_lower.data) then "inproceedings"
    else if jourKeywords.any (fun x => containsSub x.data venue_lower.data) then "article"
    else "article"
  else "misc"

/-- Lines 65-66 of the source: segment before the first comma, split on
whitespace, last token, with the unknown fallbacks. -/
def author_last_of (authors : String) : String :=
  let author_parts := if authors ≠ "" then pySplitWs (beforeFirstComma authors) else ["unknown"]
  author_parts.getLastD "unknown"

/-- Line 67 of the source: the key stem with the positional index
appended after an underscore. -/
def bibtex_key_of (pub : RawPub) (index : Nat) : String :=
  let n := normalizeRecord pub
  sanitize_bibtex_key (stripBraces n.title) n.year (author_last_of (stripBraces n.authors)) ++
    "_" ++ Nat.repr index

/-- One emitted field line of the entry body. -/
def fieldLine (key val : String) : String :=
  "  " ++ key ++ " = \x7b" ++ val ++ "\x7d,"

/-- Lines 71-89 of the source: the key-value pairs emitted into the
entry body, in emission order. -/
def fieldPairs (pub : RawPub) : List (String × String) :=
  let n := normalizeRecord pub
  let entry_type := entry_type_of n.venue
  [("title", stripBraces n.title), ("author", stripBraces n.authors), ("year", n.year)] ++
  (if n.venue ≠ "" then
     [if entry_type == "inproceedings" then ("booktitle", n.venue) else ("journal", n.venue)]
   else []) ++
  (if n.snippet ≠ "" then [("abstract", stripBraces n.snippet)] else []) ++
  (if n.citations ≠ 0 then [("note", "Cited by " ++ Nat.repr n.citations)] else []) ++
  (if n.link ≠ "" then [("url", n.link)] else [])

/-- Lines 70-92 of the source: all lines of one entry. -/
def bibtexLines (pub : RawPub) (index : Nat) : List String :=
  ("@" ++ entry_type_of (normalizeRecord pub).venue ++ "\x7b" ++ bibtex_key_of pub index ++ ",") ::
  ((fieldPairs pub).map (fun kv => fieldLine kv.1 kv.2) ++ ["\x7d"])

/-- Lines 38-92 of the source: one rendered entry. -/
def publication_to_bibtex (pub : RawPub) (index : Nat) : String :=
  joinSep "\n" (bibtexLines pub index)

/-- A loosely-typed Python value, for the fields where the source can
raise: strings, ints, or None. -/
inductive PyVal where
  | str (s : String)
  | int (n : Int)
  | pynone
deriving DecidableEq

/-- Python truthiness of a PyVal. -/
def pyTruthy : PyVal → Bool
  | .str s => !(s == "")
  | .int n => !(n == 0)
  | .pynone => false

/-- Python str() of a PyVal, which never raises. -/
def pyStr : PyVal → String
  | .str s => s
  | .int n => toString n
  | .pynone => "None"

/-- A string method call on a PyVal: succeeds only on strings,
otherwise raises AttributeError. -/
def asStr : PyVal → Except String String
  | .str s => .ok s
  | .int _ => .error "AttributeError: int"
  | .pynone => .error "AttributeError: NoneType"

/-- A raw record with loosely-typed values, the shape over which
publication_to_bibtex can raise. -/
structure PyDict where
  title : Option PyVal := none
  authors : Option PyVal := none
  year : Option PyVal := none
  venue : Option PyVal := none
  publication : Option PyVal := none
  snippet : Option PyVal := none
  citations : Option PyVal := none
  link : Option PyVal := none

/-- Lines 38-92 of the source over loosely-typed values: each string
method call (replace on title and authors, lower on a truthy venue,
replace on a truthy snippet) raises unless the value is a string;
str() formatting of year, venue, citations and link is total. -/
def publication_to_bibtexE (pub : PyDict) (index : Nat) : Except String String := do
  let titleV := pub.title.getD (.str "Unknown Title")
  let authorsV := pub.authors.getD (.str "Unknown Author")
  let year := pyStr (pub.year.getD (.str "n.d."))
  let venueV := pub.venue.getD (pub.publication.getD (.str ""))
  let snippetV := pub.snippet.getD (.str "")
  let citationsV := pub.citations.getD (.int 0)
  let linkV := pub.link.getD (.str "")
  let title := stripBraces (← asStr titleV)
  let authors := stripBraces (← asStr authorsV)
  let entry_type ←
    if pyTruthy venueV then do
      let venue_lower := strToLower (← asStr venueV)
      pure (if confKeywords.any (fun x => containsSub x.data venue_lower.data) then "inproceedings"
            else if jourKeywords.any (fun x => containsSub x.data venue_lower.data) then "article"
            else "article")
    else pure "misc"
  let bibtex_key := sanitize_bibtex_key title year (author_last_of authors) ++ "_" ++ Nat.repr index
  let venueLines :=
    if pyTruthy venueV then
      [if entry_type == "inproceedings" then fieldLine "booktitle" (pyStr venueV)
       else fieldLine "journal" (pyStr venueV)]
    else []
  let snippetLines ←
    if pyTruthy snippetV then do
      pure [fieldLine "abstract" (stripBraces (← asStr snippetV))]
    else pure []
  let noteLines :=
    if pyTruthy citationsV then [fieldLine "note" ("Cited by " ++ pyStr citationsV)] else []
  let urlLines :=
    if pyTruthy linkV then [fieldLine "url" (pyStr linkV)] else []
  pure (joinSep "\n"
    (("@" ++ entry_type ++ "\x7b" ++ bibtex_key ++ ",") ::
     ([fieldLine "title" title, fieldLine "author" authors, fieldLine "year" year] ++
      venueLines ++ snippetLines ++ noteLines ++ urlLines ++ ["\x7d"])))

deriving instance DecidableEq for Except

/-- Result of the conversion loop: the collected entries and the
diagnostics printed for skipped records. -/
structure ConvertResult where
  entries : List String
  diagnostics : List String
deriving DecidableEq

/-- Lines 344-350 of the source, starting at index i: each record is
converted inside a try block; on failure a diagnostic is recorded and
the loop moves on. -/
def convertAllFrom (i : Nat) : List PyDict → ConvertResult
  | [] => ⟨[], []⟩
  | p :: rest =>
    let r := convertAllFrom (i + 1) rest
    match publication_to_bibtexE p i with
    | .ok e => ⟨e :: r.entries, r.diagnostics⟩
    | .error msg =>
      ⟨r.entries, ("  Could not convert publication " ++ Nat.repr (i + 1) ++ ": " ++ msg) :: r.diagnostics⟩

/-- The conversion loop over a whole batch, from index 0. -/
def convertAll (pubs : List PyDict) : ConvertResult := convertAllFrom 0 pubs

/-- The guidance block printed on the empty-result condition,
lines 329-338 of the source. -/
def guidanceLines : List String :=
  ["No publications found!",
   "Troubleshooting tips:",
   "   1. Try a different name format",
   "   2. Google Scholar may be blocking requests - try later",
   "   3. Use SerpAPI for guaranteed results"]

/-- Observable outcome of a run after acquisition: either the guidance
messages with no file written, or the written file content plus the
per-record diagnostics. -/
inductive RunOutcome where
  | noResults (msgs : List String)
  | wrote (content : String) (msgs : List String)
deriving DecidableEq

/-- The file content written in lines 353-358 of the source: a four
comment-line header, a blank line, entries separated by blank lines. -/
def fileContent (author_name : String) (entries : List String) : String :=
  "% BibTeX file generated from Google Scholar\n% Author: " ++ author_name ++
  "\n% Total entries: " ++ Nat.repr entries.length ++
  "\n% Generated by: scholar_to_bibtex.py\n\n" ++ joinSep "\n\n" entries

/-- Lines 328-358 of the source, modelled from the point where the
acquired records are in hand: an empty batch yields the guidance
messages and writes no file; otherwise the loop runs and the file is
written. -/
def generate_bibtex_file (author_name : String) (pubs : List PyDict) : RunOutcome :=
  if pubs.isEmpty then .noResults guidanceLines
  else
    let r := convertAll pubs
    .wrote (fileContent author_name r.entries) r.diagnostics

/-- The file written by a run, if any. -/
def writtenFile : RunOutcome → Option String
  | .noResults _ => none
  | .wrote c _ => some c

/-- The syntactic prefix identifying a field line for a given key. -/
def fieldStart (key : String) : String := "  " ++ key ++ " = \x7b"

/-- Whether some line of ls is a field line for the given key. -/
def hasLineKey (ls : List String) (key : String) : Bool :=
  ls.any (fun l => (fieldStart key).data.isPrefixOf l.data)

/-- Plain decimal digit list of a natural number, used to reason about
Nat.repr. -/
def decDigits (n : Nat) : List Char :=
  if n < 10 then [Nat.digitChar n]
  else decDigits (n / 10) ++ [Nat.digitChar (n % 10)]
decreasing_by exact Nat.div_lt_self (by omega) (by omega)

/-- Decimal decoding, a left inverse of decDigits. -/
def ofDec (l : List Char) : Nat :=
  l.foldl (fun a c => a * 10 + (c.toNat - 48)) 0

/-- The end-to-end example record of the specification. -/
def c1pub : RawPub :=
  { title := some "A Study", authors := some "J Smith, K Lee", year := some "2021",
    venue := some "IEEE Conference on X", snippet := some "", citations := some 5,
    link := some "" }

/-- The key-generator example record of the specification. -/
def c2pub : RawPub :=
  { title := some "Deep Learning Systems", authors := some "Jane Smith", year := some "2020" }

/-- A record whose venue value holds a literal curly brace. -/
def c4pub : RawPub :=
  { title := some "T", authors := some "A B", year := some "2020",
    venue := some "Conf\x7bX" }

/-- c4pub with the brace removed from its venue value. -/
def c4pubStripped : RawPub :=
  { title := some "T", authors := some "A B", year := some "2020",
    venue := some "ConfX" }

/-- A record with no venue key but a publication key. -/
def c6pub : RawPub :=
  { publication := some "Deep Journal" }

/-- A record pre-stripped on title and authors, for the sanitization
invariance statement. -/
def stripTitleAuthors (pub : RawPub) : RawPub :=
  { pub with title := pub.title.map stripBraces, authors := pub.authors.map stripBraces }

/-- A well-typed loosely-typed record that converts successfully. -/
def goodDict : PyDict :=
  { title := some (.str "Good Title"), authors := some (.str "A B"),
    year := some (.str "2020"), venue := some (.str "Some Conference") }

/-- A loosely-typed record whose title is an int, so rendering raises
at title.replace. -/
def badDict : PyDict :=
  { title := some (.int 3) }

/-- A record with braces in its title and authors values. -/
def c4wpub : RawPub :=
  { title := some "A\x7bB\x7d", authors := some "X \x7bY\x7d Z" }

/-- A record with no venue key but a publication key, for the venue
fallback claim. -/
def c10pub : RawPub :=
  { publication := some "Fallback Venue" }

/-- The diagnostic string recorded for a record that fails to convert. -/
def diagFor (i : Nat) (msg : String) : String :=
  "  Could not convert publication " ++ Nat.repr (i + 1) ++ ": " ++ msg

/-! Helper lemmas: string plumbing. -/

theorem isPrefixOf_append_of_le (p : List Char) :
    ∀ (a x : List Char), p.length ≤ a.length →
      p.isPrefixOf (a ++ x) = p.isPrefixOf a := by
  induction p with
  | nil => intro a x _; simp
  | cons c cs ih =>
    intro a x h
    cases a with
    | nil => simp at h
    | cons b bs =>
      simp only [List.cons_append, List.isPrefixOf_cons₂]
      rw [ih bs x (by simpa using h)]

theorem isPrefixOf_append_false (p : List Char) :
    ∀ (a x : List Char), p.isPrefixOf a = false → a.isPrefixOf p = false →
      p.isPrefixOf (a ++ x) = false := by
  induction p with
  | nil => intro a x h1 _; simp at h1
  | cons c cs ih =>
    intro a x h1 h2
    cases a with
    | nil => simp at h2
    | cons b bs =>
      simp only [List.cons_append, List.isPrefixOf_cons₂] at h1 h2 ⊢
      rcases Bool.and_eq_false_iff.mp h1 with hcb | h1r
      · simp [hcb]
      · have hbc : (b == c) = false ∨ bs.isPrefixOf cs = false := Bool.and_eq_false_iff.mp h2
        by_cases hcb : (c == b) = true
        · have hc : c = b := beq_iff_eq.mp hcb
          subst hc
          rcases hbc with hbc | hbs
          · simp at hbc
          · simp [hcb, ih bs x h1r hbs]
        · simp [Bool.eq_false_iff.mpr hcb]

theorem fieldLine_eq (k v : String) : fieldLine k v = fieldStart k ++ (v ++ "\x7d,") := by
  apply String.ext
  simp [fieldLine, fieldStart]

theorem pref_fieldLine_false (p : List Char) (k v : String)
    (h1 : p.isPrefixOf (fieldStart k).data = false)
    (h2 : (fieldStart k).data.isPrefixOf p = false) :
    p.isPrefixOf (fieldLine k v).data = false := by
  rw [fieldLine_eq, String.data_append]
  exact isPrefixOf_append_false p _ _ h1 h2

theorem pref_fieldLine_true (p : List Char) (k v : String)
    (hlen : p.length ≤ (fieldStart k).data.length)
    (h : p.isPrefixOf (fieldStart k).data = true) :
    p.isPrefixOf (fieldLine k v).data = true := by
  rw [fieldLine_eq, String.data_append, isPrefixOf_append_of_le p _ _ hlen]
  exact h

theorem pref_header_false (p : List Char) (et key : String)
    (h1 : p.isPrefixOf ("@").data = false)
    (h2 : ("@").data.isPrefixOf p = false) :
    p.isPrefixOf ("@" ++ et ++ "\x7b" ++ key ++ ",").data = false := by
  have : ("@" ++ et ++ "\x7b" ++ key ++ ",").data = ("@").data ++ (et ++ "\x7b" ++ key ++ ",").data := by
    simp
  rw [this]
  exact isPrefixOf_append_false p _ _ h1 h2

/-! Helper lemmas: decimal representation of Nat. -/

theorem data_mk (l : List Char) : (String.mk l).data = l := rfl

theorem decDigits_lt {n : Nat} (h : n < 10) : decDigits n = [Nat.digitChar n] := by
  rw [decDigits]
  simp [h]

theorem decDigits_ge {n : Nat} (h : 10 ≤ n) :
    decDigits n = decDigits (n / 10) ++ [Nat.digitChar (n % 10)] := by
  rw [decDigits]
  simp [Nat.not_lt.mpr h]

theorem toDigitsCore_eq_decDigits :
    ∀ (fuel n : Nat) (ds : List Char), n < fuel →
      Nat.toDigitsCore 10 fuel n ds = decDigits n ++ ds := by
  intro fuel
  induction fuel with
  | zero => intro n ds h; exact absurd h (Nat.not_lt_zero n)
  | succ f ih =>
    intro n ds h
    by_cases h10 : n < 10
    · have hdiv : n / 10 = 0 := Nat.div_eq_of_lt h10
      simp [Nat.toDigitsCore, hdiv, decDigits_lt h10, Nat.mod_eq_of_lt h10]
    · push_neg at h10
      have hdiv1 : 1 ≤ n / 10 := (Nat.one_le_div_iff (by omega)).mpr h10
      have hlt : n / 10 < f := by
        have h1 : n / 10 < n := Nat.div_lt_self (by omega) (by omega)
        omega
      have hdiv : ¬ n / 10 = 0 := by omega
      simp [Nat.toDigitsCore, hdiv, ih (n / 10) _ hlt, decDigits_ge h10]

theorem repr_eq_decDigits (n : Nat) : Nat.repr n = String.mk (decDigits n) := by
  show (Nat.toDigits 10 n).asString = String.mk (decDigits n)
  rw [Nat.toDigits, toDigitsCore_eq_decDigits (n + 1) n [] (Nat.lt_succ_self n)]
  simp [List.asString]

theorem digitChar_ne_underscore : ∀ n, n < 10 → Nat.digitChar n ≠ '_' := by decide

theorem digitChar_val : ∀ n, n < 10 → (Nat.digitChar n).toNat - 48 = n := by decide

theorem decDigits_no_underscore (n : Nat) : ∀ c ∈ decDigits n, c ≠ '_' := by
  induction n using Nat.strong_induction_on with
  | _ n ih =>
    by_cases h : n < 10
    · rw [decDigits_lt h]
      intro c hc
      simp at hc
      subst hc
      exact digitChar_ne_underscore n h
    · push_neg at h
      rw [decDigits_ge h]
      intro c hc
      rcases List.mem_append.mp hc with h1 | h2
      · exact ih (n / 10) (Nat.div_lt_self (by omega) (by omega)) c h1
      · simp at h2
        subst h2
        exact digitChar_ne_underscore _ (Nat.mod_lt n (by omega))

theorem ofDec_decDigits (n : Nat) : ofDec (decDigits n) = n := by
  induction n using Nat.strong_induction_on with
  | _ n ih =>
    by_cases h : n < 10
    · rw [decDigits_lt h]
      show 0 * 10 + ((Nat.digitChar n).toNat - 48) = n
      rw [digitChar_val n h]
      omega
    · push_neg at h
      rw [decDigits_ge h]
      show List.foldl (fun a c => a * 10 + (c.toNat - 48)) 0 (decDigits (n / 10) ++ [Nat.digitChar (n % 10)]) = n
      rw [List.foldl_append]
      show (ofDec (decDigits (n / 10))) * 10 + ((Nat.digitChar (n % 10)).toNat - 48) = n
      rw [ih (n / 10) (Nat.div_lt_self (by omega) (by omega)),
          digitChar_val _ (Nat.mod_lt n (by omega))]
      omega

theorem repr_injective {m n : Nat} (h : Nat.repr m = Nat.repr n) : m = n := by
  have h2 : decDigits m = decDigits n := by
    have hd := congrArg String.data h
    rw [repr_eq_decDigits, repr_eq_decDigits, data_mk, data_mk] at hd
    exact hd
  calc m = ofDec (decDigits m) := (ofDec_decDigits m).symm
    _ = ofDec (decDigits n) := by rw [h2]
    _ = n := ofDec_decDigits n

/-! Helper lemmas: the index suffix after the last underscore. -/

theorem noSep_append_inj :
    ∀ (u₁ u₂ v₁ v₂ : List Char), (∀ c ∈ u₁, c ≠ '_') → (∀ c ∈ u₂, c ≠ '_') →
      u₁ ++ '_' :: v₁ = u₂ ++ '_' :: v₂ → u₁ = u₂ := by
  intro u₁
  induction u₁ with
  | nil =>
    intro u₂ v₁ v₂ _ h2 h
    cases u₂ with
    | nil => rfl
    | cons b bs =>
      simp only [List.nil_append, List.cons_append, List.cons.injEq] at h
      exact absurd h.1.symm (h2 b (by simp))
  | cons a as ih =>
    intro u₂ v₁ v₂ h1 h2 h
    cases u₂ with
    | nil =>
      simp only [List.nil_append, List.cons_append, List.cons.injEq] at h
      exact absurd h.1 (h1 a (by simp))
    | cons b bs =>
      simp only [List.cons_append, List.cons.injEq] at h
      have htl := ih bs v₁ v₂ (fun c hc => h1 c (List.mem_cons_of_mem a hc))
        (fun c hc => h2 c (List.mem_cons_of_mem b hc)) h.2
      rw [h.1, htl]

theorem underscore_suffix_inj (a b d₁ d₂ : List Char)
    (h1 : ∀ c ∈ d₁, c ≠ '_') (h2 : ∀ c ∈ d₂, c ≠ '_')
    (h : a ++ '_' :: d₁ = b ++ '_' :: d₂) : d₁ = d₂ := by
  have hr := congrArg List.reverse h
  simp only [List.reverse_append, List.reverse_cons] at hr
  have hr2 : d₁.reverse ++ '_' :: a.reverse = d₂.reverse ++ '_' :: b.reverse := by
    simpa [List.append_assoc] using hr
  have := noSep_append_inj d₁.reverse d₂.reverse a.reverse b.reverse
    (fun c hc => h1 c (List.mem_reverse.mp hc))
    (fun c hc => h2 c (List.mem_reverse.mp hc)) hr2
  have := congrArg List.reverse this
  simpa using this

theorem key_index_inj (a b : String) (i j : Nat)
    (h : a ++ "_" ++ Nat.repr i = b ++ "_" ++ Nat.repr j) : i = j := by
  have hd := congrArg String.data h
  rw [repr_eq_decDigits, repr_eq_decDigits] at hd
  simp only [String.data_append, data_mk] at hd
  have hd2 : a.data ++ '_' :: decDigits i = b.data ++ '_' :: decDigits j := by
    simpa [List.append_assoc] using hd
  have hdd := underscore_suffix_inj a.data b.data (decDigits i) (decDigits j)
    (decDigits_no_underscore i) (decDigits_no_underscore j) hd2
  have : Nat.repr i = Nat.repr j := by
    rw [repr_eq_decDigits, repr_eq_decDigits, hdd]
  exact repr_injective this

/-! Helper lemmas: the leftmost-match scanner and brace stripping. -/

theorem findLeast_none (p : Nat → Bool) :
    ∀ (fuel start : Nat), (∀ j, j < start + fuel → p j = false) → findLeast p start fuel = none := by
  intro fuel
  induction fuel with
  | zero => intro start _; rfl
  | succ f ih =>
    intro start h
    have h0 : p start = false := h start (by omega)
    simp only [findLeast, h0, Bool.false_eq_true, if_false]
    exact ih (start + 1) (fun j hj => h j (by omega))

theorem findLeast_some (p : Nat → Bool) (i : Nat) (hp : p i = true)
    (hmin : ∀ j, j < i → p j = false) :
    ∀ (fuel start : Nat), start ≤ i → i < start + fuel → findLeast p start fuel = some i := by
  intro fuel
  induction fuel with
  | zero => intro start _ h2; omega
  | succ f ih =>
    intro start h1 h2
    by_cases hs : start = i
    · subst hs
      simp [findLeast, hp]
    · have hlt : start < i := by omega
      have hps : p start = false := hmin start hlt
      simp [findLeast, hps]
      exact ih (start + 1) (by omega) (by omega)

theorem stripBraces_idem (s : String) : stripBraces (stripBraces s) = stripBraces s := by
  apply String.ext
  simp [stripBraces, List.filter_filter]

theorem stripBraces_no_brace (s : String) :
    ∀ c ∈ (stripBraces s).data, ¬(c = '\x7b' ∨ c = '\x7d') := by
  intro c hc
  simp only [stripBraces, data_mk, List.mem_filter] at hc
  intro hor
  rcases hor with h | h <;> subst h <;> simp at hc

theorem bibtexLines_congr {pub q : RawPub} (i : Nat)
    (h : normalizeRecord pub = normalizeRecord q) : bibtexLines pub i = bibtexLines q i := by
  simp only [bibtexLines, fieldPairs, bibtex_key_of, h]

/-! Helper lemmas: which field lines occur in a rendered entry. -/

theorem any_ite (c : Prop) [Decidable c] (a b : List (String × String)) (f : String × String → Bool) :
    (if c then a else b).any f = if c then a.any f else b.any f := by
  split <;> rfl

theorem any_map_fun {α β : Type} (f : α → β) (l : List α) (p : β → Bool) :
    (l.map f).any p = l.any (fun a => p (f a)) := by
  induction l with
  | nil => rfl
  | cons a t ih => simp [ih]

theorem pref_ite_pair (p : List Char) (c : Prop) [Decidable c] (a b : String × String) :
    p.isPrefixOf (fieldLine (if c then a else b).1 (if c then a else b).2).data =
      if c then p.isPrefixOf (fieldLine a.1 a.2).data
      else p.isPrefixOf (fieldLine b.1 b.2).data := by
  split <;> rfl

theorem hasLineKey_to_pairs (k : String) (pub : RawPub) (i : Nat)
    (h1 : (fieldStart k).data.isPrefixOf ("@").data = false)
    (h2 : ("@").data.isPrefixOf (fieldStart k).data = false)
    (h3 : (fieldStart k).data.isPrefixOf ("\x7d" : String).data = false) :
    hasLineKey (bibtexLines pub i) k =
      (fieldPairs pub).any (fun kv => (fieldStart k).data.isPrefixOf (fieldLine kv.1 kv.2).data) := by
  have he : ∀ et key : String,
      (fieldStart k).data.isPrefixOf ("@" ++ et ++ "\x7b" ++ key ++ ",").data = false :=
    fun et key => pref_header_false _ et key h1 h2
  simp only [hasLineKey, bibtexLines, List.any_cons, List.any_append, any_map_fun,
    he, h3, List.any_nil, Bool.false_or, Bool.or_false]

theorem pairsAny_note (pub : RawPub) :
    ((fieldPairs pub).any (fun kv => (fieldStart "note").data.isPrefixOf (fieldLine kv.1 kv.2).data)) =
      decide ((normalizeRecord pub).citations ≠ 0) := by
  have h1 : ∀ v, (fieldStart "note").data.isPrefixOf (fieldLine "title" v).data = false :=
    fun v => pref_fieldLine_false _ _ v (by decide) (by decide)
  have h2 : ∀ v, (fieldStart "note").data.isPrefixOf (fieldLine "author" v).data = false :=
    fun v => pref_fieldLine_false _ _ v (by decide) (by decide)
  have h3 : ∀ v, (fieldStart "note").data.isPrefixOf (fieldLine "year" v).data = false :=
    fun v => pref_fieldLine_false _ _ v (by decide) (by decide)
  have h4 : ∀ v, (fieldStart "note").data.isPrefixOf (fieldLine "booktitle" v).data = false :=
    fun v => pref_fieldLine_false _ _ v (by decide) (by decide)
  have h5 : ∀ v, (fieldStart "note").data.isPrefixOf (fieldLine "journal" v).data = false :=
    fun v => pref_fieldLine_false _ _ v (by decide) (by decide)
  have h6 : ∀ v, (fieldStart "note").data.isPrefixOf (fieldLine "abstract" v).data = false :=
    fun v => pref_fieldLine_false _ _ v (by decide) (by decide)
  have h7 : ∀ v, (fieldStart "note").data.isPrefixOf (fieldLine "url" v).data = false :=
    fun v => pref_fieldLine_false _ _ v (by decide) (by decide)
  have h8 : ∀ v, (fieldStart "note").data.isPrefixOf (fieldLine "note" v).data = true :=
    fun v => pref_fieldLine_true _ _ v (by decide) (by decide)
  simp only [fieldPairs, List.any_append, List.any_cons, List.any_nil, any_ite, pref_ite_pair,
    h1, h2, h3, h4, h5, h6, h7, h8, ite_self, Bool.or_false, Bool.false_or]
  by_cases hc : (normalizeRecord pub).citations ≠ 0 <;> simp [hc]

theorem pairsAny_abstract (pub : RawPub) :
    ((fieldPairs pub).any (fun kv => (fieldStart "abstract").data.isPrefixOf (fieldLine kv.1 kv.2).data)) =
      decide ((normalizeRecord pub).snippet ≠ "") := by
  have h1 : ∀ v, (fieldStart "abstract").data.isPrefixOf (fieldLine "title" v).data = false :=
    fun v => pref_fieldLine_false _ _ v (by decide) (by decide)
  have h2 : ∀ v, (fieldStart "abstract").data.isPrefixOf (fieldLine "author" v).data = false :=
    fun v => pref_fieldLine_false _ _ v (by decide) (by decide)
  have h3 : ∀ v, (fieldStart "abstract").data.isPrefixOf (fieldLine "year" v).data = false :=
    fun v => pref_fieldLine_false _ _ v (by decide) (by decide)
  have h4 : ∀ v, (fieldStart "abstract").data.isPrefixOf (fieldLine "booktitle" v).data = false :=
    fun v => pref_fieldLine_false _ _ v (by decide) (by decide)
  have h5 : ∀ v, (fieldStart "abstract").data.isPrefixOf (fieldLine "journal" v).data = false :=
    fun v => pref_fieldLine_false _ _ v (by decide) (by decide)
  have h6 : ∀ v, (fieldStart "abstract").data.isPrefixOf (fieldLine "abstract" v).data = true :=
    fun v => pref_fieldLine_true _ _ v (by decide) (by decide)
  have h7 : ∀ v, (fieldStart "abstract").data.isPrefixOf (fieldLine "note" v).data = false :=
    fun v => pref_fieldLine_false _ _ v (by decide) (by decide)
  have h8 : ∀ v, (fieldStart "abstract").data.isPrefixOf (fieldLine "url" v).data = false :=
    fun v => pref_fieldLine_false _ _ v (by decide) (by decide)
  simp only [fieldPairs, List.any_append, List.any_cons, List.any_nil, any_ite, pref_ite_pair,
    h1, h2, h3, h4, h5, h6, h7, h8, ite_self, Bool.or_false, Bool.false_or]
  by_cases hc : (normalizeRecord pub).snippet ≠ "" <;> simp [hc]

theorem pairsAny_url (pub : RawPub) :
    ((fieldPairs pub).any (fun kv => (fieldStart "url").data.isPrefixOf (fieldLine kv.1 kv.2).data)) =
      decide ((normalizeRecord pub).link ≠ "") := by
  have h1 : ∀ v, (fieldStart "url").data.isPrefixOf (fieldLine "title" v).data = false :=
    fun v => pref_fieldLine_false _ _ v (by decide) (by decide)
  have h2 : ∀ v, (fieldStart "url").data.isPrefixOf (fieldLine "author" v).data = false :=
    fun v => pref_fieldLine_false _ _ v (by decide) (by decide)
  have h3 : ∀ v, (fieldStart "url").data.isPrefixOf (fieldLine "year" v).data = false :=
    fun v => pref_fieldLine_false _ _ v (by decide) (by decide)
  have h4 : ∀ v, (fieldStart "url").data.isPrefixOf (fieldLine "booktitle" v).data = false :=
    fun v => pref_fieldLine_false _ _ v (by decide) (by decide)
  have h5 : ∀ v, (fieldStart "url").data.isPrefixOf (fieldLine "journal" v).data = false :=
    fun v => pref_fieldLine_false _ _ v (by decide) (by decide)
  have h6 : ∀ v, (fieldStart "url").data.isPrefixOf (fieldLine "abstract" v).data = false :=
    fun v => pref_fieldLine_false _ _ v (by decide) (by decide)
  have h7 : ∀ v, (fieldStart "url").data.isPrefixOf (fieldLine "note" v).data = false :=
    fun v => pref_fieldLine_false _ _ v (by decide) (by decide)
  have h8 : ∀ v, (fieldStart "url").data.isPrefixOf (fieldLine "url" v).data = true :=
    fun v => pref_fieldLine_true _ _ v (by decide) (by decide)
  simp only [fieldPairs, List.any_append, List.any_cons, List.any_nil, any_ite, pref_ite_pair,
    h1, h2, h3, h4, h5, h6, h7, h8, ite_self, Bool.or_false, Bool.false_or]
  by_cases hc : (normalizeRecord pub).link ≠ "" <;> simp [hc]

theorem pairsAny_booktitle (pub : RawPub) :
    ((fieldPairs pub).any (fun kv => (fieldStart "booktitle").data.isPrefixOf (fieldLine kv.1 kv.2).data)) =
      (decide ((normalizeRecord pub).venue ≠ "") &&
       decide (entry_type_of (normalizeRecord pub).venue = "inproceedings")) := by
  have h1 : ∀ v, (fieldStart "booktitle").data.isPrefixOf (fieldLine "title" v).data = false :=
    fun v => pref_fieldLine_false _ _ v (by decide) (by decide)
  have h2 : ∀ v, (fieldStart "booktitle").data.isPrefixOf (fieldLine "author" v).data = false :=
    fun v => pref_fieldLine_false _ _ v (by decide) (by decide)
  have h3 : ∀ v, (fieldStart "booktitle").data.isPrefixOf (fieldLine "year" v).data = false :=
    fun v => pref_fieldLine_false _ _ v (by decide) (by decide)
  have h4 : ∀ v, (fieldStart "booktitle").data.isPrefixOf (fieldLine "booktitle" v).data = true :=
    fun v => pref_fieldLine_true _ _ v (by decide) (by decide)
  have h5 : ∀ v, (fieldStart "booktitle").data.isPrefixOf (fieldLine "journal" v).data = false :=
    fun v => pref_fieldLine_false _ _ v (by decide) (by decide)
  have h6 : ∀ v, (fieldStart "booktitle").data.isPrefixOf (fieldLine "abstract" v).data = false :=
    fun v => pref_fieldLine_false _ _ v (by decide) (by decide)
  have h7 : ∀ v, (fieldStart "booktitle").data.isPrefixOf (fieldLine "note" v).data = false :=
    fun v => pref_fieldLine_false _ _ v (by decide) (by decide)
  have h8 : ∀ v, (fieldStart "booktitle").data.isPrefixOf (fieldLine "url" v).data = false :=
    fun v => pref_fieldLine_false _ _ v (by decide) (by decide)
  simp only [fieldPairs, List.any_append, List.any_cons, List.any_nil, any_ite, pref_ite_pair,
    h1, h2, h3, h4, h5, h6, h7, h8, ite_self, Bool.or_false, Bool.false_or]
  by_cases hv : (normalizeRecord pub).venue ≠ "" <;>
    by_cases he : entry_type_of (normalizeRecord pub).venue = "inproceedings" <;>
    simp [hv, he]

theorem pairsAny_journal (pub : RawPub) :
    ((fieldPairs pub).any (fun kv => (fieldStart "journal").data.isPrefixOf (fieldLine kv.1 kv.2).data)) =
      (decide ((normalizeRecord pub).venue ≠ "") &&
       !decide (entry_type_of (normalizeRecord pub).venue = "inproceedings")) := by
  have h1 : ∀ v, (fieldStart "journal").data.isPrefixOf (fieldLine "title" v).data = false :=
    fun v => pref_fieldLine_false _ _ v (by decide) (by decide)
  have h2 : ∀ v, (fieldStart "journal").data.isPrefixOf (fieldLine "author" v).data = false :=
    fun v => pref_fieldLine_false _ _ v (by decide) (by decide)
  have h3 : ∀ v, (fieldStart "journal").data.isPrefixOf (fieldLine "year" v).data = false :=
    fun v => pref_fieldLine_false _ _ v (by decide) (by decide)
  have h4 : ∀ v, (fieldStart "journal").data.isPrefixOf (fieldLine "booktitle" v).data = false :=
    fun v => pref_fieldLine_false _ _ v (by decide) (by decide)
  have h5 : ∀ v, (fieldStart "journal").data.isPrefixOf (fieldLine "journal" v).data = true :=
    fun v => pref_fieldLine_true _ _ v (by decide) (by decide)
  have h6 : ∀ v, (fieldStart "journal").data.isPrefixOf (fieldLine "abstract" v).data = false :=
    fun v => pref_fieldLine_false _ _ v (by decide) (by decide)
  have h7 : ∀ v, (fieldStart "journal").data.isPrefixOf (fieldLine "note" v).data = false :=
    fun v => pref_fieldLine_false _ _ v (by decide) (by decide)
  have h8 : ∀ v, (fieldStart "journal").data.isPrefixOf (fieldLine "url" v).data = false :=
    fun v => pref_fieldLine_false _ _ v (by decide) (by decide)
  simp only [fieldPairs, List.any_append, List.any_cons, List.any_nil, any_ite, pref_ite_pair,
    h1, h2, h3, h4, h5, h6, h7, h8, ite_self, Bool.or_false, Bool.false_or]
  by_cases hv : (normalizeRecord pub).venue ≠ "" <;>
    by_cases he : entry_type_of (normalizeRecord pub).venue = "inproceedings" <;>
    simp [hv, he]

/-! Helper lemmas: shape of the emitted pairs and of the batch loop. -/

theorem fieldPairs_mem (pub : RawPub) :
    ∀ kv ∈ fieldPairs pub,
      kv = ("title", stripBraces (normalizeRecord pub).title) ∨
      kv = ("author", stripBraces (normalizeRecord pub).authors) ∨
      kv = ("year", (normalizeRecord pub).year) ∨
      kv = ("booktitle", (normalizeRecord pub).venue) ∨
      kv = ("journal", (normalizeRecord pub).venue) ∨
      kv = ("abstract", stripBraces (normalizeRecord pub).snippet) ∨
      kv = ("note", "Cited by " ++ Nat.repr (normalizeRecord pub).citations) ∨
      kv = ("url", (normalizeRecord pub).link) := by
  intro kv hkv
  simp only [fieldPairs, List.mem_append, List.mem_cons, List.not_mem_nil, or_false] at hkv
  rcases hkv with ((((h | h | h) | h) | h) | h) | h
  · tauto
  · tauto
  · tauto
  · by_cases hv : (normalizeRecord pub).venue ≠ ""
    · rw [if_pos hv] at h
      simp only [List.mem_singleton] at h
      by_cases hbj : (entry_type_of (normalizeRecord pub).venue == "inproceedings") = true
      · rw [if_pos hbj] at h
        tauto
      · rw [if_neg hbj] at h
        tauto
    · rw [if_neg hv] at h
      exact absurd h (List.not_mem_nil kv)
  · by_cases hs : (normalizeRecord pub).snippet ≠ ""
    · rw [if_pos hs] at h
      simp only [List.mem_singleton] at h
      tauto
    · rw [if_neg hs] at h
      exact absurd h (List.not_mem_nil kv)
  · by_cases hc : (normalizeRecord pub).citations ≠ 0
    · rw [if_pos hc] at h
      simp only [List.mem_singleton] at h
      tauto
    · rw [if_neg hc] at h
      exact absurd h (List.not_mem_nil kv)
  · by_cases hl : (normalizeRecord pub).link ≠ ""
    · rw [if_pos hl] at h
      simp only [List.mem_singleton] at h
      tauto
    · rw [if_neg hl] at h
      exact absurd h (List.not_mem_nil kv)

theorem convertAllFrom_spec :
    ∀ (pubs : List PyDict) (i : Nat),
      convertAllFrom i pubs =
        ⟨(List.enumFrom i pubs).filterMap (fun x => (publication_to_bibtexE x.2 x.1).toOption),
         (List.enumFrom i pubs).filterMap (fun x =>
           match publication_to_bibtexE x.2 x.1 with
           | .ok _ => none
           | .error m => some (diagFor x.1 m))⟩ := by
  intro pubs
  induction pubs with
  | nil => intro i; rfl
  | cons p rest ih =>
    intro i
    simp only [convertAllFrom, ih (i + 1), List.enumFrom, List.filterMap_cons]
    cases h : publication_to_bibtexE p i with
    | ok e => simp [h, Except.toOption, diagFor]
    | error m => simp [h, Except.toOption, diagFor, convertAllFrom]

/-! Claim theorems. -/

/-- Claim C1: for the example record of the specification at index 0 the
renderer produces exactly the inproceedings entry with key
smith2021a_0, booktitle and note lines, no abstract or url line, every
field line ending with a comma, with fields in the fixed order title,
author, year, booktitle, note. -/
theorem claim_C1 :
    bibtexLines c1pub 0 =
      ["@inproceedings\x7bsmith2021a_0,",
       "  title = \x7bA Study\x7d,",
       "  author = \x7bJ Smith, K Lee\x7d,",
       "  year = \x7b2021\x7d,",
       "  booktitle = \x7bIEEE Conference on X\x7d,",
       "  note = \x7bCited by 5\x7d,",
       "\x7d"] ∧
    publication_to_bibtex c1pub 0 =
      "@inproceedings\x7bsmith2021a_0,\n  title = \x7bA Study\x7d,\n  author = \x7bJ Smith, K Lee\x7d,\n  year = \x7b2021\x7d,\n  booktitle = \x7bIEEE Conference on X\x7d,\n  note = \x7bCited by 5\x7d,\n\x7d" ∧
    (bibtexLines c1pub 0).head? = some "@inproceedings\x7bsmith2021a_0," ∧
    "  booktitle = \x7bIEEE Conference on X\x7d," ∈ bibtexLines c1pub 0 ∧
    "  note = \x7bCited by 5\x7d," ∈ bibtexLines c1pub 0 ∧
    hasLineKey (bibtexLines c1pub 0) "abstract" = false ∧
    hasLineKey (bibtexLines c1pub 0) "url" = false ∧
    (∀ l ∈ (fieldPairs c1pub).map (fun kv => fieldLine kv.1 kv.2), l.data.getLast? = some ',') := by
  decide

/-- Claim C2: every citation key is the sanitized surname, the year and
the lowercased first title word followed by an underscore and the
zero-based index, so records rendered at different indices always get
different keys; the example of the specification yields smith2020deep_0 and
smith2020deep_1. -/
theorem claim_C2 (pub1 pub2 : RawPub) (i j : Nat) :
    bibtex_key_of pub1 i =
      sanitize_bibtex_key (stripBraces (normalizeRecord pub1).title) (normalizeRecord pub1).year
        (author_last_of (stripBraces (normalizeRecord pub1).authors)) ++ "_" ++ Nat.repr i ∧
    (i ≠ j → bibtex_key_of pub1 i ≠ bibtex_key_of pub2 j) ∧
    bibtex_key_of c2pub 0 = "smith2020deep_0" ∧
    bibtex_key_of c2pub 1 = "smith2020deep_1" := by
  refine ⟨rfl, ?_, by decide, by decide⟩
  intro hij heq
  simp only [bibtex_key_of] at heq
  exact hij (key_index_inj _ _ i j heq)

/-- Witness for C2 at the example record and indices 0 and 1. -/
theorem claim_C2_witness : (0 : Nat) ≠ 1 ∧ bibtex_key_of c2pub 0 ≠ bibtex_key_of c2pub 1 :=
  ⟨by decide, (claim_C2 c2pub c2pub 0 1).2.1 (by decide)⟩

/-- Claim C3: the empty venue is classified misc; a non-empty venue
containing a conference keyword, case-insensitively, is classified
inproceedings even if it also contains journal; every other non-empty
venue is classified article. -/
theorem claim_C3 (venue : String) :
    (venue = "" → entry_type_of venue = "misc") ∧
    (venue ≠ "" →
      confKeywords.any (fun x => containsSub x.data (strToLower venue).data) = true →
      entry_type_of venue = "inproceedings") ∧
    (venue ≠ "" →
      confKeywords.any (fun x => containsSub x.data (strToLower venue).data) = false →
      entry_type_of venue = "article") := by
  refine ⟨fun h => by simp [entry_type_of, h], fun h hc => by simp [entry_type_of, h, hc],
    fun h hc => ?_⟩
  simp [entry_type_of, h, hc]

/-- Witness for C3 at four concrete venues, one of which contains both
workshop and journal. -/
theorem claim_C3_witness :
    entry_type_of "" = "misc" ∧
    entry_type_of "Journal of the Workshop on X" = "inproceedings" ∧
    entry_type_of "IEEE Transactions on Y" = "article" ∧
    entry_type_of "Annals of Botany" = "article" :=
  ⟨(claim_C3 "").1 rfl,
   (claim_C3 "Journal of the Workshop on X").2.1 (by decide) (by decide),
   (claim_C3 "IEEE Transactions on Y").2.2 (by decide) (by decide),
   (claim_C3 "Annals of Botany").2.2 (by decide) (by decide)⟩

/-- Counterexample to C4 as stated: a literal brace in the venue value
is embedded verbatim into the entry, and the entry changes when the
brace is removed from the venue, so braces are not stripped from every
textual field. -/
theorem claim_C4_counterexample :
    containsSub ("Conf\x7bX").data (publication_to_bibtex c4pub 0).data = true ∧
    publication_to_bibtex c4pub 0 ≠ publication_to_bibtex c4pubStripped 0 := by
  decide

/-- Claim C4 amended: braces are stripped from the title and authors
values before embedding, so the entry is unchanged when they are
pre-stripped, and the emitted title, author and abstract values are
brace-free; braces in year, venue or link pass through. -/
theorem claim_C4 (pub : RawPub) (i : Nat) :
    publication_to_bibtex (stripTitleAuthors pub) i = publication_to_bibtex pub i ∧
    (∀ kv ∈ fieldPairs pub, kv.1 = "title" ∨ kv.1 = "author" ∨ kv.1 = "abstract" →
      ∀ c ∈ kv.2.data, ¬(c = '\x7b' ∨ c = '\x7d')) := by
  constructor
  · have ht : stripBraces (normalizeRecord (stripTitleAuthors pub)).title
        = stripBraces (normalizeRecord pub).title := by
      cases h : pub.title <;> simp [normalizeRecord, stripTitleAuthors, h, stripBraces_idem]
    have ha : stripBraces (normalizeRecord (stripTitleAuthors pub)).authors
        = stripBraces (normalizeRecord pub).authors := by
      cases h : pub.authors <;> simp [normalizeRecord, stripTitleAuthors, h, stripBraces_idem]
    have hv : (normalizeRecord (stripTitleAuthors pub)).venue = (normalizeRecord pub).venue := rfl
    have hy : (normalizeRecord (stripTitleAuthors pub)).year = (normalizeRecord pub).year := rfl
    have hs : (normalizeRecord (stripTitleAuthors pub)).snippet = (normalizeRecord pub).snippet := rfl
    have hc : (normalizeRecord (stripTitleAuthors pub)).citations = (normalizeRecord pub).citations := rfl
    have hl : (normalizeRecord (stripTitleAuthors pub)).link = (normalizeRecord pub).link := rfl
    simp only [publication_to_bibtex, bibtexLines, fieldPairs, bibtex_key_of, ht, ha, hv, hy,
      hs, hc, hl]
  · intro kv hkv hk c hc hor
    rcases fieldPairs_mem pub kv hkv with h | h | h | h | h | h | h | h
    · subst h
      exact stripBraces_no_brace _ c hc hor
    · subst h
      exact stripBraces_no_brace _ c hc hor
    · subst h
      rcases hk with h1 | h1 | h1 <;> simp at h1
    · subst h
      rcases hk with h1 | h1 | h1 <;> simp at h1
    · subst h
      rcases hk with h1 | h1 | h1 <;> simp at h1
    · subst h
      exact stripBraces_no_brace _ c hc hor
    · subst h
      rcases hk with h1 | h1 | h1 <;> simp at h1
    · subst h
      rcases hk with h1 | h1 | h1 <;> simp at h1

/-- Witness for the amended C4 at a record with braces in title and
authors. -/
theorem claim_C4_witness :
    publication_to_bibtex (stripTitleAuthors c4wpub) 0 = publication_to_bibtex c4wpub 0 ∧
    (∀ c ∈ (("title", stripBraces (normalizeRecord c4wpub).title) : String × String).2.data,
      ¬(c = '\x7b' ∨ c = '\x7d')) :=
  ⟨(claim_C4 c4wpub 0).1,
   (claim_C4 c4wpub 0).2 ("title", stripBraces (normalizeRecord c4wpub).title)
     (by decide) (by decide)⟩

/-- Claim C5: year extraction returns the verbatim leftmost bounded
4-digit token beginning 19 or 20, and the sentinel when no position of
the text matches. -/
theorem claim_C5 (s : String) :
    ((∀ i, i < s.data.length → yearTokenAt s.data i = false) → extract_year s = "n.d.") ∧
    (∀ i, yearTokenAt s.data i = true → (∀ j, j < i → yearTokenAt s.data j = false) →
      extract_year s = String.mk ((s.data.drop i).take 4)) := by
  constructor
  · intro h
    have hnone : findLeast (yearTokenAt s.data) 0 s.data.length = none :=
      findLeast_none (yearTokenAt s.data) s.data.length 0 (fun j hj => h j (by omega))
    unfold extract_year
    rw [hnone]
  · intro i hp hmin
    have hi4 : i + 4 ≤ s.data.length := by
      by_contra hc
      have hfalse : yearTokenAt s.data i = false := by
        unfold yearTokenAt
        rw [decide_eq_false hc]
        simp
      rw [hfalse] at hp
      exact Bool.false_ne_true hp
    have hsome : findLeast (yearTokenAt s.data) 0 s.data.length = some i :=
      findLeast_some (yearTokenAt s.data) i hp hmin s.data.length 0 (Nat.zero_le i) (by omega)
    unfold extract_year
    rw [hsome]

/-- Witness for C5: the example text of the specification yields 2019, and a
text with no year token yields the sentinel. -/
theorem claim_C5_witness :
    extract_year "... Proceedings 2019, IEEE" = "2019" ∧
    extract_year "no digits here" = "n.d." := by
  constructor
  · have h := (claim_C5 "... Proceedings 2019, IEEE").2 16 (by decide) (by decide)
    rw [h]
    decide
  · exact (claim_C5 "no digits here").1 (by decide)

/-- Counterexample to C6 as stated: with the venue key absent but a
publication key present, the normalized venue is the publication value,
not the empty string. -/
theorem claim_C6_counterexample :
    c6pub.venue = none ∧ (normalizeRecord c6pub).venue = "Deep Journal" ∧
    (normalizeRecord c6pub).venue ≠ "" := by
  decide

/-- Claim C6 amended: the record normalizer is total; absent title and
authors default to the placeholder literals, absent snippet and link to
the empty string, an absent citation count to zero, an absent year to
the no-match sentinel of the year-extraction rule, and an absent venue to
the publication value of the record (empty only when that too is absent). -/
theorem claim_C6 (pub : RawPub) :
    (pub.title = none → (normalizeRecord pub).title = "Unknown Title") ∧
    (pub.authors = none → (normalizeRecord pub).authors = "Unknown Author") ∧
    (pub.year = none → (normalizeRecord pub).year = extract_year "") ∧
    (pub.venue = none → (normalizeRecord pub).venue = pub.publication.getD "") ∧
    (pub.snippet = none → (normalizeRecord pub).snippet = "") ∧
    (pub.citations = none → (normalizeRecord pub).citations = 0) ∧
    (pub.link = none → (normalizeRecord pub).link = "") := by
  refine ⟨fun h => by simp [normalizeRecord, h],
    fun h => by simp [normalizeRecord, h],
    fun h => ?_,
    fun h => by simp [normalizeRecord, h],
    fun h => by simp [normalizeRecord, h],
    fun h => by simp [normalizeRecord, h],
    fun h => by simp [normalizeRecord, h]⟩
  simp only [normalizeRecord, h, Option.getD_none]
  decide

/-- Witness for the amended C6 at a record with only a publication key. -/
theorem claim_C6_witness :
    (normalizeRecord c6pub).title = "Unknown Title" ∧
    (normalizeRecord c6pub).authors = "Unknown Author" ∧
    (normalizeRecord c6pub).year = extract_year "" ∧
    (normalizeRecord c6pub).venue = c6pub.publication.getD "" ∧
    (normalizeRecord c6pub).snippet = "" ∧
    (normalizeRecord c6pub).citations = 0 ∧
    (normalizeRecord c6pub).link = "" :=
  ⟨(claim_C6 c6pub).1 rfl, (claim_C6 c6pub).2.1 rfl, (claim_C6 c6pub).2.2.1 rfl,
   (claim_C6 c6pub).2.2.2.1 rfl, (claim_C6 c6pub).2.2.2.2.1 rfl,
   (claim_C6 c6pub).2.2.2.2.2.1 rfl, (claim_C6 c6pub).2.2.2.2.2.2 rfl⟩

/-- Claim C7: an entry has a note line exactly when the citation count
is non-zero, a booktitle or journal line exactly when the venue is
non-empty, an abstract line exactly when the snippet is non-empty, a
url line exactly when the link is non-empty, and any emitted note value
is the annotation Cited by N. -/
theorem claim_C7 (pub : RawPub) (i : Nat) :
    (hasLineKey (bibtexLines pub i) "note" = true ↔ (normalizeRecord pub).citations ≠ 0) ∧
    ((hasLineKey (bibtexLines pub i) "booktitle" = true ∨
      hasLineKey (bibtexLines pub i) "journal" = true) ↔ (normalizeRecord pub).venue ≠ "") ∧
    (hasLineKey (bibtexLines pub i) "abstract" = true ↔ (normalizeRecord pub).snippet ≠ "") ∧
    (hasLineKey (bibtexLines pub i) "url" = true ↔ (normalizeRecord pub).link ≠ "") ∧
    (∀ kv ∈ fieldPairs pub, kv.1 = "note" →
      kv.2 = "Cited by " ++ Nat.repr (normalizeRecord pub).citations) := by
  have hnote := hasLineKey_to_pairs "note" pub i (by decide) (by decide) (by decide)
  have hbook := hasLineKey_to_pairs "booktitle" pub i (by decide) (by decide) (by decide)
  have hjour := hasLineKey_to_pairs "journal" pub i (by decide) (by decide) (by decide)
  have habs := hasLineKey_to_pairs "abstract" pub i (by decide) (by decide) (by decide)
  have hurl := hasLineKey_to_pairs "url" pub i (by decide) (by decide) (by decide)
  refine ⟨?_, ?_, ?_, ?_, ?_⟩
  · rw [hnote, pairsAny_note]
    simp
  · rw [hbook, hjour, pairsAny_booktitle, pairsAny_journal]
    constructor
    · intro h
      rcases h with h | h <;> · simp only [Bool.and_eq_true, decide_eq_true_eq] at h
                                exact h.1
    · intro h
      by_cases he : entry_type_of (normalizeRecord pub).venue = "inproceedings"
      · left
        simp [h, he]
      · right
        simp [h, he]
  · rw [habs, pairsAny_abstract]
    simp
  · rw [hurl, pairsAny_url]
    simp
  · intro kv hkv hk
    rcases fieldPairs_mem pub kv hkv with h | h | h | h | h | h | h | h <;> subst h <;>
      first
        | rfl
        | simp at hk

/-- Witness for C7 at the example record, which has citations and a
venue but no snippet and no link. -/
theorem claim_C7_witness :
    hasLineKey (bibtexLines c1pub 0) "note" = true ∧
    (hasLineKey (bibtexLines c1pub 0) "booktitle" = true ∨
     hasLineKey (bibtexLines c1pub 0) "journal" = true) ∧
    (("note", "Cited by 5") : String × String).2 =
      "Cited by " ++ Nat.repr (normalizeRecord c1pub).citations :=
  ⟨(claim_C7 c1pub 0).1.mpr (by decide),
   (claim_C7 c1pub 0).2.1.mpr (by decide),
   (claim_C7 c1pub 0).2.2.2.2 ("note", "Cited by 5") (by decide) (by decide)⟩

/-- Claim C8: the conversion loop is total over any batch, its entries
are exactly the successful conversions in order, and every record whose
conversion fails contributes a diagnostic and is merely skipped, so a
per-record failure never aborts the batch. -/
theorem claim_C8 (pubs : List PyDict) :
    (convertAll pubs).entries =
      (List.enumFrom 0 pubs).filterMap (fun x => (publication_to_bibtexE x.2 x.1).toOption) ∧
    (∀ i, ∀ h : i < pubs.length, ∀ msg,
      publication_to_bibtexE pubs[i] i = .error msg →
      diagFor i msg ∈ (convertAll pubs).diagnostics) := by
  have hs := convertAllFrom_spec pubs 0
  constructor
  · rw [convertAll, hs]
  · intro i h msg hmsg
    rw [convertAll, hs]
    apply List.mem_filterMap.mpr
    refine ⟨(i, pubs[i]), ?_, ?_⟩
    · have hlen : i < (List.enumFrom 0 pubs).length := by
        simpa using h
      have hget : (List.enumFrom 0 pubs)[i] = (0 + i, pubs[i]) := by
        simp
      rw [show ((i, pubs[i]) : Nat × PyDict) = (List.enumFrom 0 pubs)[i] by simp [hget]]
      exact List.getElem_mem hlen
    · simp only [hmsg]

/-- Witness for C8 at a batch whose middle record has an int title, so
its conversion raises while both neighbours convert. -/
theorem claim_C8_witness :
    (convertAll [goodDict, badDict, goodDict]).entries =
      (List.enumFrom 0 [goodDict, badDict, goodDict]).filterMap
        (fun x => (publication_to_bibtexE x.2 x.1).toOption) ∧
    diagFor 1 "AttributeError: int" ∈ (convertAll [goodDict, badDict, goodDict]).diagnostics ∧
    (convertAll [goodDict, badDict, goodDict]).entries.length = 2 :=
  ⟨(claim_C8 [goodDict, badDict, goodDict]).1,
   (claim_C8 [goodDict, badDict, goodDict]).2 1 (by decide) "AttributeError: int" (by decide),
   by decide⟩

/-- Claim C9: a run with zero acquired records emits the guidance
block, writes no file, and returns normally. -/
theorem claim_C9 (author : String) :
    generate_bibtex_file author [] = RunOutcome.noResults guidanceLines ∧
    writtenFile (generate_bibtex_file author []) = none ∧
    "No publications found!" ∈ guidanceLines := by
  refine ⟨rfl, rfl, by decide⟩

/-- Claim C10: when the venue key is absent the renderer uses the
venue value taken from the publication key, empty only when both are absent,
and the whole entry renders as if that value had been the venue. -/
theorem claim_C10 (pub : RawPub) (i : Nat) (h : pub.venue = none) :
    (normalizeRecord pub).venue = pub.publication.getD "" ∧
    publication_to_bibtex pub i =
      publication_to_bibtex { pub with venue := some (pub.publication.getD "") } i := by
  have hn : normalizeRecord pub =
      normalizeRecord { pub with venue := some (pub.publication.getD "") } := by
    simp [normalizeRecord, h]
  refine ⟨by simp [normalizeRecord, h], ?_⟩
  simp only [publication_to_bibtex]
  rw [bibtexLines_congr i hn]

/-- Witness for C10 at a record with only a publication key. -/
theorem claim_C10_witness :
    (normalizeRecord c10pub).venue = c10pub.publication.getD "" ∧
    publication_to_bibtex c10pub 0 =
      publication_to_bibtex { c10pub with venue := some (c10pub.publication.getD "") } 0 :=
  claim_C10 c10pub 0 rfl
